import Mathlib

/-!
Shallow embedding of the filtered-view engine of `src/src/lib/index.ts`
(`spacetimedb-runes`): the boolean expression DSL (`eq`/`and`/`or`,
`evaluate`, `toString`), the membership classifier, and the event-handling
state machine of the `TableQuery` class (transaction de-duplication,
initial-snapshot once-guard, subscription lifecycle, `destroy`).

Conventions of the embedding:
* JavaScript scalar values (`string | number | boolean`) are the `Value`
  type; numbers are embedded as integers.
* A row is an association list from column name to a `RowVal`, which is
  either a scalar or `nonScalar` (covering objects, arrays, `null`,
  `undefined`, functions — every JavaScript value whose `typeof` is not
  `string`/`number`/`boolean`).  A missing key reads as `none`, matching
  `row[key] === undefined`.
* Transaction identities (`ctx.event`, a JavaScript `any`) are embedded as
  `Option Nat`: `none` is a falsy value (`null`/`undefined`), `some n` a
  truthy one; distinct truthy identities get distinct numbers.
-/

namespace STQ

/-- JavaScript scalar: `string | number | boolean` (the `Value` type of the
source).  Numbers are embedded as integers. -/
inductive Value where
  | str (s : String)
  | num (n : Int)
  | bool (b : Bool)
deriving DecidableEq, Repr

/-- A JavaScript value as seen by `evaluate`: either a scalar or anything
else (`typeof` not in `string`/`number`/`boolean`). -/
inductive RowVal where
  | scalar (v : Value)
  | nonScalar
deriving DecidableEq, Repr

/-- A row: association list from column name to value. -/
def Row : Type := List (String × RowVal)

instance : DecidableEq Row := by
  unfold Row
  infer_instance

/-- `row[key]`: `none` models a missing key (`undefined`). -/
def rowGet (r : Row) (k : String) : Option RowVal :=
  match List.find? (fun p => p.1 == k) r with
  | some p => some p.2
  | none => none

/-- The expression tree `Expr` of the source (column names are plain
strings here; the `Column` type parameter of the source is phantom at
runtime). -/
inductive Expr where
  | eq (key : String) (value : Value)
  | and (children : List Expr)
  | or (children : List Expr)
deriving Repr

instance : Inhabited Expr := ⟨Expr.and []⟩

/-- Builder `eq(key, value)`. -/
def eq (key : String) (value : Value) : Expr := Expr.eq key value

/-- The flattening loop of the `and` builder: skip falsy operands
(embedded as `none`), splice the children of a direct `and` child, keep
everything else.  The source's final `flat.filter(Boolean)` is the
identity here because every element pushed is a non-null expression. -/
def flattenAnd : List (Option Expr) → List Expr
  | [] => []
  | none :: rest => flattenAnd rest
  | some c :: rest =>
    match c with
    | Expr.and cs => cs ++ flattenAnd rest
    | _ => c :: flattenAnd rest

/-- Builder `and(...children)`: length 0 gives the empty `and` node,
length 1 collapses to the sole survivor, otherwise an `and` node. -/
def and (children : List (Option Expr)) : Expr :=
  match flattenAnd children with
  | [] => Expr.and []
  | [x] => x
  | pruned => Expr.and pruned

/-- The flattening loop of the `or` builder (same shape, splices `or`
children). -/
def flattenOr : List (Option Expr) → List Expr
  | [] => []
  | none :: rest => flattenOr rest
  | some c :: rest =>
    match c with
    | Expr.or cs => cs ++ flattenOr rest
    | _ => c :: flattenOr rest

/-- Builder `or(...children)`. -/
def or (children : List (Option Expr)) : Expr :=
  match flattenOr children with
  | [] => Expr.or []
  | [x] => x
  | pruned => Expr.or pruned

mutual
/-- `evaluate(expr, row)` of the source.  The `eq` branch reads
`row[key]`, requires a scalar `typeof`, then applies strict equality
(same scalar type, same value); `and`/`or` are the source's
`length === 0 || every` and `length !== 0 && some`. -/
def evaluate : Expr → Row → Bool
  | Expr.eq k v, r =>
    match rowGet r k with
    | some (RowVal.scalar w) => w == v
    | _ => false
  | Expr.and cs, r => cs.isEmpty || evalAll cs r
  | Expr.or cs, r => !cs.isEmpty && evalAny cs r

/-- `children.every((c) => evaluate(c, row))`. -/
def evalAll : List Expr → Row → Bool
  | [], _ => true
  | c :: rest, r => evaluate c r && evalAll rest r

/-- `children.some((c) => evaluate(c, row))`. -/
def evalAny : List Expr → Row → Bool
  | [], _ => false
  | c :: rest, r => evaluate c r || evalAny rest r
end

/-- The single-quote character. -/
def squote : Char := Char.ofNat 39

/-- The double-quote character. -/
def dquote : Char := Char.ofNat 34

/-- `s.replace(/'/g, "''")`. -/
def escSQ (s : String) : String :=
  String.mk (s.data.foldr
    (fun c acc => if c == squote then squote :: squote :: acc else c :: acc) [])

/-- `s.replace(/"/g, Chr(34) twice)`. -/
def escDQ (s : String) : String :=
  String.mk (s.data.foldr
    (fun c acc => if c == dquote then dquote :: dquote :: acc else c :: acc) [])

/-- `formatValue`: strings single-quoted with internal quotes doubled,
numbers via `String(v)` (always finite in the integer embedding, so the
non-finite branch is dead), booleans as `TRUE`/`FALSE`. -/
def formatValue : Value → String
  | Value.str s => String.mk [squote] ++ escSQ s ++ String.mk [squote]
  | Value.num n => ToString.toString n
  | Value.bool b => if b then "TRUE" else "FALSE"

/-- `[A-Za-z_]` (Lean's `Char.isAlpha` is exactly ASCII letters). -/
def isIdentStart (c : Char) : Bool := c.isAlpha || c == Char.ofNat 95

/-- `[A-Za-z0-9_]`. -/
def isIdentRest (c : Char) : Bool := c.isAlphanum || c == Char.ofNat 95

/-- `escapeIdent`: identifiers matching the regex pass through, anything
else is double-quoted with internal double quotes doubled. -/
def escapeIdent (id : String) : String :=
  match id.data with
  | [] => String.mk [dquote] ++ escDQ id ++ String.mk [dquote]
  | c :: rest =>
    if isIdentStart c && rest.all isIdentRest then id
    else String.mk [dquote] ++ escDQ id ++ String.mk [dquote]

/-- `pat` is a leading slice of `s`. -/
def startsWithL : List Char → List Char → Bool
  | [], _ => true
  | _ :: _, [] => false
  | p :: ps, c :: cs => p == c && startsWithL ps cs

/-- `pat` occurs somewhere inside `s` (JavaScript `String.includes`). -/
def hasSubL (pat : List Char) : List Char → Bool
  | [] => startsWithL pat []
  | c :: rest => startsWithL pat (c :: rest) || hasSubL pat rest

/-- `s.includes(pat)`. -/
def strIncludes (s pat : String) : Bool := hasSubL pat.data s.data

/-- `parenthesize`: wrap in parentheses iff the string contains an
`" AND "` or `" OR "` substring anywhere. -/
def parenthesize (s : String) : String :=
  if !strIncludes s " AND " && !strIncludes s " OR " then s
  else "(" ++ s ++ ")"

mutual
/-- `toString(expr)` of the source: an `eq` leaf renders
`ident = literal`; an `and`/`or` node joins its rendered children with
the operator token and then applies `parenthesize` to its own joined
text. -/
def toString : Expr → String
  | Expr.eq k v => escapeIdent k ++ " = " ++ formatValue v
  | Expr.and cs => parenthesize (joinAnd cs)
  | Expr.or cs => parenthesize (joinOr cs)

/-- `children.map(toString).join(' AND ')`. -/
def joinAnd : List Expr → String
  | [] => ""
  | [c] => toString c
  | c :: rest => toString c ++ " AND " ++ joinAnd rest

/-- `children.map(toString).join(' OR ')`. -/
def joinOr : List Expr → String
  | [] => ""
  | [c] => toString c
  | c :: rest => toString c ++ " OR " ++ joinOr rest
end

/-- The four membership transition labels. -/
inductive MembershipChange where
  | enter
  | leave
  | stayIn
  | stayOut
deriving DecidableEq, Repr

/-- `classifyMembership(where, oldRow, newRow)`: no predicate means
`stayIn`; otherwise compare the predicate on the old and new rows. -/
def classifyMembership (wc : Option Expr) (oldRow newRow : Row) :
    MembershipChange :=
  match wc with
  | none => MembershipChange.stayIn
  | some w =>
    let oldIn := evaluate w oldRow
    let newIn := evaluate w newRow
    if oldIn && !newIn then MembershipChange.leave
    else if !oldIn && newIn then MembershipChange.enter
    else if oldIn && newIn then MembershipChange.stayIn
    else MembershipChange.stayOut

/-! ### The `TableQuery` event machine

State of one `TableQuery` instance after `#setupSubscription` has run,
together with the callback invocations it makes.  The table cache is the
external collaborator: each raw event first applies its row change to the
cache (as the SDK does before dispatching listeners) and then runs the
handler from `#setupTableListeners`.  Callback invocations are recorded in
lists so that counting them is definitional. -/

/-- A transaction identity (JavaScript `ctx.event`): `none` is falsy
(`null`/`undefined`), `some n` a truthy identity. -/
def TxId : Type := Option Nat

instance : DecidableEq TxId := by
  unfold TxId
  infer_instance

/-- State of one `TableQuery` plus its observable callback history. -/
structure QState where
  /-- contents of the shared full-table cache (`table.iter()`) -/
  tableRows : List Row
  /-- the materialized `#rows` -/
  rows : List Row
  /-- `#subscribeApplied` -/
  subscribeApplied : Bool
  /-- the `once` guard inside `#initialSnapshotHandler` has fired -/
  snapshotFired : Bool
  /-- `#latestTransactionEvent` (initially `null`, i.e. falsy) -/
  latestTx : TxId
  /-- number of `#updateSnapshot` executions (recompute/republish) -/
  recomputeCount : Nat
  /-- arguments of fired `onInitialSnapshot` invocations, in order -/
  initialSnapshotCalls : List (List Row)
  /-- arguments of fired `onInsert` invocations, in order -/
  onInsertCalls : List Row
  /-- arguments of fired `onDelete` invocations, in order -/
  onDeleteCalls : List Row
  /-- arguments of fired `onUpdate` invocations, in order -/
  onUpdateCalls : List (Row × Row)

/-- `#computeSnapshot`: filter the cache through the predicate, or pass
it through when there is none. -/
def computeSnapshot (wc : Option Expr) (tableRows : List Row) : List Row :=
  match wc with
  | some w => tableRows.filter (fun r => evaluate w r)
  | none => tableRows

/-- `#updateSnapshot`: recompute `#rows` and invoke the once-guarded
initial-snapshot handler. -/
def updateSnapshot (wc : Option Expr) (s : QState) : QState :=
  let newRows := computeSnapshot wc s.tableRows
  let s1 := { s with rows := newRows, recomputeCount := s.recomputeCount + 1 }
  if s1.snapshotFired then s1
  else { s1 with
    snapshotFired := true,
    initialSnapshotCalls := s1.initialSnapshotCalls ++ [newRows] }

/-- The shared de-duplication tail of the three raw-event handlers:
`if (ctx.event !== latest || !latest) { latest = ctx.event; update(); }`. -/
def maybeRecompute (wc : Option Expr) (tx : TxId) (s : QState) : QState :=
  if tx ≠ s.latestTx ∨ s.latestTx = (none : Option Nat) then
    updateSnapshot wc { s with latestTx := tx }
  else s

/-- `this.#whereClause && !evaluate(this.#whereClause, row)`: the early
return of the insert/delete handlers. -/
def wcBlocks (wc : Option Expr) (row : Row) : Bool :=
  match wc with
  | some w => !evaluate w row
  | none => false

/-- The `onInsert` raw-event handler. -/
def handleInsert (wc : Option Expr) (tx : TxId) (row : Row) (s : QState) :
    QState :=
  if wcBlocks wc row then s
  else
    maybeRecompute wc tx { s with onInsertCalls := s.onInsertCalls ++ [row] }

/-- The `onDelete` raw-event handler. -/
def handleDelete (wc : Option Expr) (tx : TxId) (row : Row) (s : QState) :
    QState :=
  if wcBlocks wc row then s
  else
    maybeRecompute wc tx { s with onDeleteCalls := s.onDeleteCalls ++ [row] }

/-- The `onUpdate` raw-event handler: classify, dispatch the matching
derived callback, then the de-duplication tail (skipped for `stayOut`). -/
def handleUpdate (wc : Option Expr) (tx : TxId) (oldRow newRow : Row)
    (s : QState) : QState :=
  match classifyMembership wc oldRow newRow with
  | MembershipChange.leave =>
    maybeRecompute wc tx { s with onDeleteCalls := s.onDeleteCalls ++ [oldRow] }
  | MembershipChange.enter =>
    maybeRecompute wc tx { s with onInsertCalls := s.onInsertCalls ++ [newRow] }
  | MembershipChange.stayIn =>
    maybeRecompute wc tx
      { s with onUpdateCalls := s.onUpdateCalls ++ [(oldRow, newRow)] }
  | MembershipChange.stayOut => s

/-- Remove the first occurrence of `row` from the cache (collaborator
behaviour of the table cache on a delete). -/
def removeFirstRow : List Row → Row → List Row
  | [], _ => []
  | r :: rest, row => if r = row then rest else r :: removeFirstRow rest row

/-- Replace the first occurrence of `oldRow` by `newRow` in the cache
(collaborator behaviour of the table cache on an update). -/
def replaceFirstRow : List Row → Row → Row → List Row
  | [], _, _ => []
  | r :: rest, oldRow, newRow =>
    if r = oldRow then newRow :: rest
    else r :: replaceFirstRow rest oldRow newRow

/-- Events delivered to one `TableQuery` after its subscription was set
up: the subscribe-applied callback, and the three raw row events. -/
inductive Ev where
  | applied
  | insert (tx : TxId) (row : Row)
  | del (tx : TxId) (row : Row)
  | update (tx : TxId) (oldRow newRow : Row)

/-- Process one event: `applied` runs the `onApplied` closure
(`#subscribeApplied = true` then `#updateSnapshot`); a raw event first
updates the shared cache, then runs the registered handler. -/
def step (wc : Option Expr) (s : QState) : Ev → QState
  | Ev.applied => updateSnapshot wc { s with subscribeApplied := true }
  | Ev.insert tx row =>
    handleInsert wc tx row { s with tableRows := s.tableRows ++ [row] }
  | Ev.del tx row =>
    handleDelete wc tx row { s with tableRows := removeFirstRow s.tableRows row }
  | Ev.update tx oldRow newRow =>
    handleUpdate wc tx oldRow newRow
      { s with tableRows := replaceFirstRow s.tableRows oldRow newRow }

/-- Process a list of events in delivery order. -/
def run (wc : Option Expr) (s : QState) (evs : List Ev) : QState :=
  evs.foldl (step wc) s

/-- State right after `#setupSubscription` ran with cache contents
`tableRows`: nothing applied, nothing fired, `#latestTransactionEvent`
is `null`. -/
def initState (tableRows : List Row) : QState :=
  { tableRows := tableRows
    rows := []
    subscribeApplied := false
    snapshotFired := false
    latestTx := none
    recomputeCount := 0
    initialSnapshotCalls := []
    onInsertCalls := []
    onDeleteCalls := []
    onUpdateCalls := [] }

/-- The transaction identity of a raw event (`none` for `applied`, which
carries no `ctx`). -/
def rawTx : Ev → Option TxId
  | Ev.applied => none
  | Ev.insert tx _ => some tx
  | Ev.del tx _ => some tx
  | Ev.update tx _ _ => some tx

/-- A raw event reaches the dispatch step (is not filtered out and, for
updates, is not classified `stayOut`). -/
def reachesDispatch (wc : Option Expr) : Ev → Bool
  | Ev.applied => false
  | Ev.insert _ row => !wcBlocks wc row
  | Ev.del _ row => !wcBlocks wc row
  | Ev.update _ oldRow newRow =>
    classifyMembership wc oldRow newRow ≠ MembershipChange.stayOut

/-! ### The constructor's status listener (subscription lifecycle)

`new TableQuery(...)` registers `handleStatusChange` on the shared status
store.  A Svelte store invokes a new subscriber synchronously with the
current value — at that moment the local `unsubscribeStatus` variable is
still unassigned, so the handler cannot deregister itself.  Later status
changes invoke the handler with the variable assigned. -/

/-- Connection status values. -/
inductive Status where
  | disconnected
  | connecting
  | connected
  | error
deriving DecidableEq, Repr

/-- Subscription-lifecycle state of one instance. -/
structure SubState where
  /-- the status listener is currently registered on the store -/
  listenerRegistered : Bool
  /-- the local `unsubscribeStatus` variable has been assigned -/
  unsubAssigned : Bool
  /-- number of `subscribe(query)` calls issued so far -/
  subscribeCalls : Nat
deriving Repr

/-- `handleStatusChange(status)`: return unless `connected`; run
`#setupSubscription` (which issues the subscribe call only when the
client is active); deregister the status listener only if the
`unsubscribeStatus` variable is already assigned. -/
def handleStatus (isActive : Bool) (status : Status) (s : SubState) :
    SubState :=
  if status ≠ Status.connected then s
  else
    let s1 := if isActive then { s with subscribeCalls := s.subscribeCalls + 1 }
              else s
    if s1.unsubAssigned then { s1 with listenerRegistered := false } else s1

/-- A later store notification: runs the handler only while the listener
is registered; `isActive` is the client's activity at that moment. -/
def deliverStatus (s : SubState) (ev : Status × Bool) : SubState :=
  if s.listenerRegistered then handleStatus ev.2 ev.1 s else s

/-- The constructor: register the listener, synchronously run the handler
on the current status with `unsubscribeStatus` still unassigned, then
complete the assignment. -/
def construct (initStatus : Status) (isActive : Bool) : SubState :=
  let s0 : SubState :=
    { listenerRegistered := true, unsubAssigned := false, subscribeCalls := 0 }
  let s1 := handleStatus isActive initStatus s0
  { s1 with unsubAssigned := true }

/-- Deliver a sequence of later status notifications. -/
def runStatus (s : SubState) (evs : List (Status × Bool)) : SubState :=
  evs.foldl deliverStatus s

/-! ### `destroy()`

`destroy` invokes `#unsubscribe` if set (it is never reset to `null`),
invokes every function in `#tableUnSubscribers`, then empties that
array.  The model returns the new state together with the number of
subscription-cancel invocations and table-listener deregistration
invocations the call performed. -/

/-- Teardown-relevant state of one instance. -/
structure DestroyState where
  /-- `#unsubscribe` is non-null (a subscription was established) -/
  hasUnsubscribe : Bool
  /-- number of functions currently in `#tableUnSubscribers` -/
  tableUnsubs : Nat
deriving DecidableEq, Repr

/-- `destroy()`: result state plus
(subscription-cancel invocations, table-deregistration invocations). -/
def destroy (s : DestroyState) : DestroyState × (Nat × Nat) :=
  let subCalls := if s.hasUnsubscribe then 1 else 0
  let tblCalls := s.tableUnsubs
  ({ s with tableUnsubs := 0 }, (subCalls, tblCalls))

/-- The predicate of the rendering scenario:
`and(eq('role','admin'), or(eq('dept','Eng'), eq('dept','Product')))`,
built through the builders as a caller would. -/
def scenarioExpr : Expr :=
  STQ.and [some (STQ.eq "role" (Value.str "admin")),
           some (STQ.or [some (STQ.eq "dept" (Value.str "Eng")),
                         some (STQ.eq "dept" (Value.str "Product"))])]

end STQ

/-! ## Theorems settling the claims -/

/-- Claim C1: `classifyMembership` always yields one of the four labels;
with no predicate it is `stayIn`; with a predicate the label is exactly
determined by the predicate's value on the old and new rows. -/
theorem classifyMembership_characterization (wc : Option STQ.Expr)
    (w : STQ.Expr) (oldRow newRow : STQ.Row) :
    (STQ.classifyMembership wc oldRow newRow = STQ.MembershipChange.enter ∨
     STQ.classifyMembership wc oldRow newRow = STQ.MembershipChange.leave ∨
     STQ.classifyMembership wc oldRow newRow = STQ.MembershipChange.stayIn ∨
     STQ.classifyMembership wc oldRow newRow = STQ.MembershipChange.stayOut)
    ∧ STQ.classifyMembership none oldRow newRow = STQ.MembershipChange.stayIn
    ∧ (STQ.classifyMembership (some w) oldRow newRow = STQ.MembershipChange.leave
        ↔ STQ.evaluate w oldRow = true ∧ STQ.evaluate w newRow = false)
    ∧ (STQ.classifyMembership (some w) oldRow newRow = STQ.MembershipChange.enter
        ↔ STQ.evaluate w oldRow = false ∧ STQ.evaluate w newRow = true)
    ∧ (STQ.classifyMembership (some w) oldRow newRow = STQ.MembershipChange.stayIn
        ↔ STQ.evaluate w oldRow = true ∧ STQ.evaluate w newRow = true)
    ∧ (STQ.classifyMembership (some w) oldRow newRow = STQ.MembershipChange.stayOut
        ↔ STQ.evaluate w oldRow = false ∧ STQ.evaluate w newRow = false) := by
  refine ⟨?_, rfl, ?_, ?_, ?_, ?_⟩
  · cases h : STQ.classifyMembership wc oldRow newRow <;> simp
  all_goals
    cases hOld : STQ.evaluate w oldRow <;>
      cases hNew : STQ.evaluate w newRow <;>
        simp [STQ.classifyMembership, hOld, hNew]

/-- Claim C7: `evaluate` is total (every evaluation is `true` or `false`;
nothing can be raised), and an `eq` leaf is `true` exactly when the row
holds a scalar at the key that is strictly equal to the literal — any
absent or non-scalar value makes the leaf `false`. -/
theorem evaluate_total_eq_leaf (e : STQ.Expr) (r : STQ.Row) (k : String)
    (v : STQ.Value) :
    (STQ.evaluate e r = true ∨ STQ.evaluate e r = false)
    ∧ (STQ.evaluate (STQ.eq k v) r = true
        ↔ STQ.rowGet r k = some (STQ.RowVal.scalar v)) := by
  constructor
  · cases STQ.evaluate e r <;> simp
  · show (match STQ.rowGet r k with
      | some (STQ.RowVal.scalar w) => w == v
      | _ => false) = true ↔ _
    cases h : STQ.rowGet r k with
    | none => simp [h]
    | some rv =>
      cases rv with
      | scalar w => simp [beq_iff_eq]
      | nonScalar => simp

/-- Claim C8: the zero-operand builders produce the operator identities:
`evaluate(and(), r)` is `true` and `evaluate(or(), r)` is `false` for
every row. -/
theorem evaluate_empty_identities (r : STQ.Row) :
    STQ.evaluate (STQ.and []) r = true
    ∧ STQ.evaluate (STQ.or []) r = false :=
  ⟨rfl, rfl⟩

/-- Claim C9 counterexample: for the expression `x = And [eq "a" 1]`
(an `and` node with exactly one child), the builder call `and(x)` does
not return `x` — it collapses to the child. -/
theorem singleton_collapse_counterexample :
    STQ.and [some (STQ.Expr.and [STQ.eq "a" (STQ.Value.num 1)])]
      = STQ.eq "a" (STQ.Value.num 1)
    ∧ STQ.and [some (STQ.Expr.and [STQ.eq "a" (STQ.Value.num 1)])]
      ≠ STQ.Expr.and [STQ.eq "a" (STQ.Value.num 1)] := by
  refine ⟨rfl, ?_⟩
  intro h
  exact STQ.Expr.noConfusion h

/-- Claim C9 as amended: `and(x) = x` and `or(x) = x` for every
expression `x` that is not itself a same-operator node with exactly one
child (every builder-produced expression satisfies this); falsy operands
are dropped. -/
theorem singleton_collapse_amended (x : STQ.Expr)
    (h1 : ∀ c : STQ.Expr, x ≠ STQ.Expr.and [c])
    (h2 : ∀ c : STQ.Expr, x ≠ STQ.Expr.or [c]) :
    STQ.and [some x] = x ∧ STQ.or [some x] = x
    ∧ STQ.and [none, some x] = STQ.and [some x]
    ∧ STQ.or [none, some x] = STQ.or [some x] := by
  refine ⟨?_, ?_, rfl, rfl⟩
  · cases x with
    | eq k v => rfl
    | or cs => rfl
    | and cs =>
      have hf : STQ.flattenAnd [some (STQ.Expr.and cs)] = cs := by
        simp [STQ.flattenAnd]
      unfold STQ.and
      rw [hf]
      match cs, h1 with
      | [], _ => rfl
      | [c], h1 => exact absurd rfl (h1 c)
      | c1 :: c2 :: tl, _ => rfl
  · cases x with
    | eq k v => rfl
    | and cs => rfl
    | or cs =>
      have hf : STQ.flattenOr [some (STQ.Expr.or cs)] = cs := by
        simp [STQ.flattenOr]
      unfold STQ.or
      rw [hf]
      match cs, h2 with
      | [], _ => rfl
      | [c], h2 => exact absurd rfl (h2 c)
      | c1 :: c2 :: tl, _ => rfl

/-- Claim C9 witness: the amended statement applied at the leaf
`eq "a" 1`. -/
theorem singleton_collapse_witness :
    STQ.and [some (STQ.eq "a" (STQ.Value.num 1))] = STQ.eq "a" (STQ.Value.num 1)
    ∧ STQ.or [some (STQ.eq "a" (STQ.Value.num 1))] = STQ.eq "a" (STQ.Value.num 1)
    ∧ STQ.and [none, some (STQ.eq "a" (STQ.Value.num 1))]
      = STQ.and [some (STQ.eq "a" (STQ.Value.num 1))]
    ∧ STQ.or [none, some (STQ.eq "a" (STQ.Value.num 1))]
      = STQ.or [some (STQ.eq "a" (STQ.Value.num 1))] :=
  singleton_collapse_amended (STQ.eq "a" (STQ.Value.num 1))
    (fun _ h => STQ.Expr.noConfusion h)
    (fun _ h => STQ.Expr.noConfusion h)

/-- Claim C3 counterexample: the scenario predicate renders with an
outer pair of parentheses, not as the bare
`role = 'admin' AND (dept = 'Eng' OR dept = 'Product')` the claim
states: `toString` applies `parenthesize` to each `and`/`or` node's own
joined text, including the root node. -/
theorem render_scenario_counterexample :
    STQ.toString STQ.scenarioExpr
      = "(role = 'admin' AND (dept = 'Eng' OR dept = 'Product'))"
    ∧ STQ.toString STQ.scenarioExpr
      ≠ "role = 'admin' AND (dept = 'Eng' OR dept = 'Product')" := by
  refine ⟨rfl, ?_⟩
  decide

/-- Claim C3 as amended: the scenario predicate renders as
`(role = 'admin' AND (dept = 'Eng' OR dept = 'Product'))`; each rendered
`and`/`or` node (the root included) parenthesizes its own joined text
exactly when that text contains an `" AND "` or `" OR "` substring, so
the nested `or` child arrives parenthesized and `eq` leaves never get
parentheses. -/
theorem render_scenario_amended :
    STQ.toString STQ.scenarioExpr
      = "(role = 'admin' AND (dept = 'Eng' OR dept = 'Product'))"
    ∧ STQ.scenarioExpr
      = STQ.Expr.and [STQ.eq "role" (STQ.Value.str "admin"),
          STQ.Expr.or [STQ.eq "dept" (STQ.Value.str "Eng"),
            STQ.eq "dept" (STQ.Value.str "Product")]]
    ∧ STQ.toString (STQ.Expr.or [STQ.eq "dept" (STQ.Value.str "Eng"),
          STQ.eq "dept" (STQ.Value.str "Product")])
      = "(dept = 'Eng' OR dept = 'Product')"
    ∧ STQ.toString (STQ.eq "role" (STQ.Value.str "admin"))
      = "role = 'admin'"
    ∧ (∀ s : String,
        STQ.parenthesize s
          = if STQ.strIncludes s " AND " || STQ.strIncludes s " OR "
            then "(" ++ s ++ ")" else s) := by
  refine ⟨rfl, rfl, rfl, rfl, ?_⟩
  intro s
  unfold STQ.parenthesize
  cases h1 : STQ.strIncludes s " AND " <;>
    cases h2 : STQ.strIncludes s " OR " <;> simp

/-! ### Helper lemmas about the event machine -/

theorem updateSnapshot_recomputeCount (wc : Option STQ.Expr) (s : STQ.QState) :
    (STQ.updateSnapshot wc s).recomputeCount = s.recomputeCount + 1 := by
  simp only [STQ.updateSnapshot]
  split <;> rfl

theorem updateSnapshot_latestTx (wc : Option STQ.Expr) (s : STQ.QState) :
    (STQ.updateSnapshot wc s).latestTx = s.latestTx := by
  simp only [STQ.updateSnapshot]
  split <;> rfl

theorem updateSnapshot_snapshotFired (wc : Option STQ.Expr) (s : STQ.QState) :
    (STQ.updateSnapshot wc s).snapshotFired = true := by
  simp only [STQ.updateSnapshot]
  split
  next h => exact h
  next => rfl

theorem updateSnapshot_calls_of_fired (wc : Option STQ.Expr) (s : STQ.QState)
    (h : s.snapshotFired = true) :
    (STQ.updateSnapshot wc s).initialSnapshotCalls = s.initialSnapshotCalls := by
  simp only [STQ.updateSnapshot]
  split
  next => rfl
  next hn => exact absurd h hn

theorem updateSnapshot_snapInv (wc : Option STQ.Expr) (s : STQ.QState)
    (h : s.initialSnapshotCalls.length = if s.snapshotFired then 1 else 0) :
    (STQ.updateSnapshot wc s).initialSnapshotCalls.length
      = if (STQ.updateSnapshot wc s).snapshotFired then 1 else 0 := by
  rw [updateSnapshot_snapshotFired wc s, if_pos rfl]
  simp only [STQ.updateSnapshot]
  split
  next hf =>
    rw [hf, if_pos rfl] at h
    exact h
  next hf =>
    have hf' : s.snapshotFired = false := by
      cases hfc : s.snapshotFired
      · rfl
      · exact absurd hfc hf
    rw [hf', if_neg Bool.false_ne_true] at h
    simp [h]

theorem maybeRecompute_fires (wc : Option STQ.Expr) (tx : STQ.TxId)
    (s : STQ.QState) (h : tx ≠ s.latestTx ∨ s.latestTx = (none : Option Nat)) :
    (STQ.maybeRecompute wc tx s).recomputeCount = s.recomputeCount + 1
    ∧ (STQ.maybeRecompute wc tx s).latestTx = tx := by
  unfold STQ.maybeRecompute
  rw [if_pos h]
  exact ⟨updateSnapshot_recomputeCount wc _, updateSnapshot_latestTx wc _⟩

theorem maybeRecompute_skips (wc : Option STQ.Expr) (tx : STQ.TxId)
    (s : STQ.QState) (h1 : tx = s.latestTx)
    (h2 : s.latestTx ≠ (none : Option Nat)) :
    STQ.maybeRecompute wc tx s = s := by
  unfold STQ.maybeRecompute
  rw [if_neg]
  intro hc
  cases hc with
  | inl hne => exact hne h1
  | inr hnone => exact h2 hnone

theorem step_dispatch_fires (wc : Option STQ.Expr) (s : STQ.QState)
    (ev : STQ.Ev) (tx : STQ.TxId) (hraw : STQ.rawTx ev = some tx)
    (hdisp : STQ.reachesDispatch wc ev = true)
    (hcond : tx ≠ s.latestTx ∨ s.latestTx = (none : Option Nat)) :
    (STQ.step wc s ev).recomputeCount = s.recomputeCount + 1
    ∧ (STQ.step wc s ev).latestTx = tx := by
  cases ev with
  | applied => exact Option.noConfusion hraw
  | insert tx' row =>
    cases hraw
    have hblk : STQ.wcBlocks wc row = false := by
      simpa [STQ.reachesDispatch] using hdisp
    simp only [STQ.step, STQ.handleInsert, hblk, if_neg Bool.false_ne_true,
      Bool.false_eq_true, if_false]
    exact maybeRecompute_fires wc tx _ hcond
  | del tx' row =>
    cases hraw
    have hblk : STQ.wcBlocks wc row = false := by
      simpa [STQ.reachesDispatch] using hdisp
    simp only [STQ.step, STQ.handleDelete, hblk, Bool.false_eq_true, if_false]
    exact maybeRecompute_fires wc tx _ hcond
  | update tx' oldRow newRow =>
    cases hraw
    simp only [STQ.reachesDispatch, decide_eq_true_eq] at hdisp
    cases hcl : STQ.classifyMembership wc oldRow newRow with
    | enter =>
      simp only [STQ.step, STQ.handleUpdate, hcl]
      exact maybeRecompute_fires wc tx _ hcond
    | leave =>
      simp only [STQ.step, STQ.handleUpdate, hcl]
      exact maybeRecompute_fires wc tx _ hcond
    | stayIn =>
      simp only [STQ.step, STQ.handleUpdate, hcl]
      exact maybeRecompute_fires wc tx _ hcond
    | stayOut => exact absurd hcl hdisp

theorem step_raw_steady (wc : Option STQ.Expr) (s : STQ.QState)
    (ev : STQ.Ev) (tx : STQ.TxId) (hraw : STQ.rawTx ev = some tx)
    (h1 : tx = s.latestTx) (h2 : s.latestTx ≠ (none : Option Nat)) :
    (STQ.step wc s ev).recomputeCount = s.recomputeCount
    ∧ (STQ.step wc s ev).latestTx = s.latestTx := by
  cases ev with
  | applied => exact Option.noConfusion hraw
  | insert tx' row =>
    cases hraw
    simp only [STQ.step, STQ.handleInsert]
    split
    · exact ⟨rfl, rfl⟩
    · rw [maybeRecompute_skips wc tx _ (by exact h1) (by exact h2)]
      exact ⟨rfl, rfl⟩
  | del tx' row =>
    cases hraw
    simp only [STQ.step, STQ.handleDelete]
    split
    · exact ⟨rfl, rfl⟩
    · rw [maybeRecompute_skips wc tx _ (by exact h1) (by exact h2)]
      exact ⟨rfl, rfl⟩
  | update tx' oldRow newRow =>
    cases hraw
    cases hcl : STQ.classifyMembership wc oldRow newRow with
    | enter =>
      simp only [STQ.step, STQ.handleUpdate, hcl]
      rw [maybeRecompute_skips wc tx _ (by exact h1) (by exact h2)]
      exact ⟨rfl, rfl⟩
    | leave =>
      simp only [STQ.step, STQ.handleUpdate, hcl]
      rw [maybeRecompute_skips wc tx _ (by exact h1) (by exact h2)]
      exact ⟨rfl, rfl⟩
    | stayIn =>
      simp only [STQ.step, STQ.handleUpdate, hcl]
      rw [maybeRecompute_skips wc tx _ (by exact h1) (by exact h2)]
      exact ⟨rfl, rfl⟩
    | stayOut => simp [STQ.step, STQ.handleUpdate, hcl]

theorem run_steady (wc : Option STQ.Expr) (t : Nat) :
    ∀ (evs : List STQ.Ev) (s : STQ.QState),
      (∀ e ∈ evs, STQ.rawTx e = some (some t)) →
      s.latestTx = some t →
      (STQ.run wc s evs).recomputeCount = s.recomputeCount
      ∧ (STQ.run wc s evs).latestTx = some t := by
  intro evs
  induction evs with
  | nil => exact fun s _ hs => ⟨rfl, hs⟩
  | cons e tl ih =>
    intro s hall hs
    have he := hall e (List.mem_cons_self e tl)
    have hstep := step_raw_steady wc s e (some t) he (hs.symm) (by
      rw [hs]; exact fun hx => Option.noConfusion hx)
    have htl := ih (STQ.step wc s e)
      (fun x hx => hall x (List.mem_cons_of_mem e hx))
      (by rw [hstep.2, hs])
    exact ⟨by rw [show STQ.run wc s (e :: tl) = STQ.run wc (STQ.step wc s e) tl
        from rfl, htl.1, hstep.1], by
      rw [show STQ.run wc s (e :: tl) = STQ.run wc (STQ.step wc s e) tl
        from rfl, htl.2]⟩

/-- Claim C2 counterexample: two consecutive insert events sharing the
transaction identity `null` (a falsy identity) both pass the dispatch
step and each triggers a recompute — the run republishes twice, not
once. -/
theorem dedup_falsy_counterexample :
    (STQ.run none (STQ.initState [])
      [STQ.Ev.insert none [], STQ.Ev.insert none []]).recomputeCount = 2
    ∧ (STQ.run none (STQ.initState [])
      [STQ.Ev.insert none [], STQ.Ev.insert none []]).recomputeCount ≠ 1 := by
  constructor
  · rfl
  · intro h
    exact absurd h (by decide)

/-- Claim C2 as amended: for a run of consecutive dispatched raw events
sharing one *truthy* transaction identity, the materialized set is
recomputed exactly once (falsy identities are exempt from
de-duplication); and any dispatched event whose identity differs from
the last-seen identity triggers a recompute. -/
theorem dedup_truthy_run (wc : Option STQ.Expr) (t : Nat) (s : STQ.QState)
    (evs : List STQ.Ev) (hne : evs ≠ [])
    (hall : ∀ e ∈ evs, STQ.rawTx e = some (some t)
      ∧ STQ.reachesDispatch wc e = true)
    (hnew : s.latestTx ≠ some t) :
    (STQ.run wc s evs).recomputeCount = s.recomputeCount + 1
    ∧ ∀ (ev : STQ.Ev) (tx : STQ.TxId), STQ.rawTx ev = some tx →
        STQ.reachesDispatch wc ev = true → tx ≠ s.latestTx →
        (STQ.step wc s ev).recomputeCount = s.recomputeCount + 1 := by
  constructor
  · cases evs with
    | nil => exact absurd rfl hne
    | cons e tl =>
      have he := hall e (List.mem_cons_self e tl)
      have hstep := step_dispatch_fires wc s e (some t) he.1 he.2
        (Or.inl (fun hx => hnew hx.symm))
      have htl := run_steady wc t tl (STQ.step wc s e)
        (fun x hx => (hall x (List.mem_cons_of_mem e hx)).1) hstep.2
      rw [show STQ.run wc s (e :: tl) = STQ.run wc (STQ.step wc s e) tl
        from rfl, htl.1, hstep.1]
  · intro ev tx hraw hdisp hdiff
    exact (step_dispatch_fires wc s ev tx hraw hdisp (Or.inl hdiff)).1

/-- Claim C2 witness: three inserts sharing the truthy identity `5`,
delivered to an unfiltered view, recompute exactly once. -/
theorem dedup_truthy_run_witness :
    (STQ.run none (STQ.initState [])
      [STQ.Ev.insert (some 5) [], STQ.Ev.insert (some 5) [],
       STQ.Ev.insert (some 5) []]).recomputeCount
      = (STQ.initState []).recomputeCount + 1
    ∧ ∀ (ev : STQ.Ev) (tx : STQ.TxId), STQ.rawTx ev = some tx →
        STQ.reachesDispatch none ev = true →
        tx ≠ (STQ.initState []).latestTx →
        (STQ.step none (STQ.initState []) ev).recomputeCount
          = (STQ.initState []).recomputeCount + 1 :=
  dedup_truthy_run none 5 (STQ.initState [])
    [STQ.Ev.insert (some 5) [], STQ.Ev.insert (some 5) [],
     STQ.Ev.insert (some 5) []]
    (List.cons_ne_nil _ _) (by decide) (by decide)

/-- Claim C10: a dispatched raw event carrying a falsy transaction
identity always triggers a recompute, whatever the last-seen identity
is — de-duplication never suppresses it. -/
theorem falsy_tx_always_recomputes (wc : Option STQ.Expr) (s : STQ.QState)
    (ev : STQ.Ev) (h1 : STQ.rawTx ev = some (none : STQ.TxId))
    (h2 : STQ.reachesDispatch wc ev = true) :
    (STQ.step wc s ev).recomputeCount = s.recomputeCount + 1 := by
  have hcond : (none : STQ.TxId) ≠ s.latestTx
      ∨ s.latestTx = (none : Option Nat) := by
    cases h : s.latestTx with
    | none => exact Or.inr rfl
    | some n => exact Or.inl (fun hx => Option.noConfusion hx)
  exact (step_dispatch_fires wc s ev none h1 h2 hcond).1

/-- Claim C10 witness: two consecutive inserts with identity `null`:
the second one still recomputes even though the last-seen identity is
the identical falsy value. -/
theorem falsy_tx_always_recomputes_witness :
    (STQ.step none (STQ.run none (STQ.initState []) [STQ.Ev.insert none []])
      (STQ.Ev.insert none [])).recomputeCount
      = (STQ.run none (STQ.initState [])
          [STQ.Ev.insert none []]).recomputeCount + 1 :=
  falsy_tx_always_recomputes none
    (STQ.run none (STQ.initState []) [STQ.Ev.insert none []])
    (STQ.Ev.insert none []) rfl rfl

/-! ### Helper lemmas about the initial-snapshot once-guard -/

theorem maybeRecompute_fired_frozen (wc : Option STQ.Expr) (tx : STQ.TxId)
    (s : STQ.QState) (h : s.snapshotFired = true) :
    (STQ.maybeRecompute wc tx s).snapshotFired = true
    ∧ (STQ.maybeRecompute wc tx s).initialSnapshotCalls
      = s.initialSnapshotCalls := by
  unfold STQ.maybeRecompute
  split
  · exact ⟨updateSnapshot_snapshotFired wc _,
      updateSnapshot_calls_of_fired wc _ (by exact h)⟩
  · exact ⟨h, rfl⟩

theorem step_fired_frozen (wc : Option STQ.Expr) (s : STQ.QState)
    (ev : STQ.Ev) (h : s.snapshotFired = true) :
    (STQ.step wc s ev).snapshotFired = true
    ∧ (STQ.step wc s ev).initialSnapshotCalls = s.initialSnapshotCalls := by
  cases ev with
  | applied =>
    exact ⟨updateSnapshot_snapshotFired wc _,
      updateSnapshot_calls_of_fired wc _ (by exact h)⟩
  | insert tx row =>
    simp only [STQ.step, STQ.handleInsert]
    split
    · exact ⟨h, rfl⟩
    · exact maybeRecompute_fired_frozen wc tx _ (by exact h)
  | del tx row =>
    simp only [STQ.step, STQ.handleDelete]
    split
    · exact ⟨h, rfl⟩
    · exact maybeRecompute_fired_frozen wc tx _ (by exact h)
  | update tx oldRow newRow =>
    cases hcl : STQ.classifyMembership wc oldRow newRow with
    | enter =>
      simp only [STQ.step, STQ.handleUpdate, hcl]
      exact maybeRecompute_fired_frozen wc tx _ (by exact h)
    | leave =>
      simp only [STQ.step, STQ.handleUpdate, hcl]
      exact maybeRecompute_fired_frozen wc tx _ (by exact h)
    | stayIn =>
      simp only [STQ.step, STQ.handleUpdate, hcl]
      exact maybeRecompute_fired_frozen wc tx _ (by exact h)
    | stayOut =>
      simp only [STQ.step, STQ.handleUpdate, hcl]
      exact ⟨h, trivial⟩

theorem run_frozen (wc : Option STQ.Expr) :
    ∀ (evs : List STQ.Ev) (s : STQ.QState), s.snapshotFired = true →
      (STQ.run wc s evs).snapshotFired = true
      ∧ (STQ.run wc s evs).initialSnapshotCalls = s.initialSnapshotCalls := by
  intro evs
  induction evs with
  | nil => exact fun s h => ⟨h, rfl⟩
  | cons e tl ih =>
    intro s h
    have hstep := step_fired_frozen wc s e h
    have htl := ih (STQ.step wc s e) hstep.1
    exact ⟨htl.1, by
      rw [show STQ.run wc s (e :: tl) = STQ.run wc (STQ.step wc s e) tl
        from rfl, htl.2, hstep.2]⟩

theorem maybeRecompute_snapInv (wc : Option STQ.Expr) (tx : STQ.TxId)
    (s : STQ.QState)
    (h : s.initialSnapshotCalls.length = if s.snapshotFired then 1 else 0) :
    (STQ.maybeRecompute wc tx s).initialSnapshotCalls.length
      = if (STQ.maybeRecompute wc tx s).snapshotFired then 1 else 0 := by
  unfold STQ.maybeRecompute
  split
  · exact updateSnapshot_snapInv wc _ (by exact h)
  · exact h

theorem step_snapInv (wc : Option STQ.Expr) (s : STQ.QState) (ev : STQ.Ev)
    (h : s.initialSnapshotCalls.length = if s.snapshotFired then 1 else 0) :
    (STQ.step wc s ev).initialSnapshotCalls.length
      = if (STQ.step wc s ev).snapshotFired then 1 else 0 := by
  cases ev with
  | applied => exact updateSnapshot_snapInv wc _ (by exact h)
  | insert tx row =>
    simp only [STQ.step, STQ.handleInsert]
    split
    · exact h
    · exact maybeRecompute_snapInv wc tx _ (by exact h)
  | del tx row =>
    simp only [STQ.step, STQ.handleDelete]
    split
    · exact h
    · exact maybeRecompute_snapInv wc tx _ (by exact h)
  | update tx oldRow newRow =>
    cases hcl : STQ.classifyMembership wc oldRow newRow with
    | enter =>
      simp only [STQ.step, STQ.handleUpdate, hcl]
      exact maybeRecompute_snapInv wc tx _ (by exact h)
    | leave =>
      simp only [STQ.step, STQ.handleUpdate, hcl]
      exact maybeRecompute_snapInv wc tx _ (by exact h)
    | stayIn =>
      simp only [STQ.step, STQ.handleUpdate, hcl]
      exact maybeRecompute_snapInv wc tx _ (by exact h)
    | stayOut =>
      simp only [STQ.step, STQ.handleUpdate, hcl]
      exact h

theorem run_snapInv (wc : Option STQ.Expr) :
    ∀ (evs : List STQ.Ev) (s : STQ.QState),
      s.initialSnapshotCalls.length = (if s.snapshotFired then 1 else 0) →
      (STQ.run wc s evs).initialSnapshotCalls.length
        = if (STQ.run wc s evs).snapshotFired then 1 else 0 := by
  intro evs
  induction evs with
  | nil => exact fun s h => h
  | cons e tl ih => exact fun s h => ih (STQ.step wc s e) (step_snapInv wc s e h)

theorem run_fired_of_applied (wc : Option STQ.Expr) :
    ∀ (evs : List STQ.Ev) (s : STQ.QState), STQ.Ev.applied ∈ evs →
      (STQ.run wc s evs).snapshotFired = true := by
  intro evs
  induction evs with
  | nil => exact fun s h => absurd h (List.not_mem_nil _)
  | cons e tl ih =>
    intro s h
    rcases List.mem_cons.mp h with he | htl
    · subst he
      exact (run_frozen wc tl _ (updateSnapshot_snapshotFired wc _)).1
    · exact ih (STQ.step wc s e) htl

/-- Claim C5: with an `onInitialSnapshot` callback registered, in any
event sequence containing the applied callback the initial-snapshot
callback fires exactly once; and when the applied callback is the first
delivered event (the spec's data flow), the one invocation happens right
there, carrying the then-current filtered row set — it never fires
again, even if `applied` is delivered a second time or later events
recompute the snapshot. -/
theorem initial_snapshot_once (wc : Option STQ.Expr) (tbl : List STQ.Row)
    (evs : List STQ.Ev) (h : STQ.Ev.applied ∈ evs) :
    (STQ.run wc (STQ.initState tbl) evs).initialSnapshotCalls.length = 1
    ∧ (STQ.run wc (STQ.initState tbl)
        (STQ.Ev.applied :: evs)).initialSnapshotCalls
      = [STQ.computeSnapshot wc tbl] := by
  constructor
  · have hinv := run_snapInv wc evs (STQ.initState tbl) rfl
    rw [run_fired_of_applied wc evs (STQ.initState tbl) h, if_pos rfl] at hinv
    exact hinv
  · have hfired : (STQ.step wc (STQ.initState tbl) STQ.Ev.applied).snapshotFired
        = true := updateSnapshot_snapshotFired wc _
    have hfz := run_frozen wc evs _ hfired
    rw [show STQ.run wc (STQ.initState tbl) (STQ.Ev.applied :: evs)
        = STQ.run wc (STQ.step wc (STQ.initState tbl) STQ.Ev.applied) evs
      from rfl, hfz.2]
    rfl

/-- Claim C5 witness: a trace where `applied` fires twice and an insert
recomputes afterwards still yields exactly one initial-snapshot
invocation, made at the first `applied` with the filtered rows. -/
theorem initial_snapshot_once_witness :
    (STQ.run none (STQ.initState [[]])
      [STQ.Ev.applied, STQ.Ev.applied,
       STQ.Ev.insert (some 1) []]).initialSnapshotCalls.length = 1
    ∧ (STQ.run none (STQ.initState [[]])
        (STQ.Ev.applied :: [STQ.Ev.applied, STQ.Ev.applied,
          STQ.Ev.insert (some 1) []])).initialSnapshotCalls
      = [STQ.computeSnapshot none [[]]] :=
  initial_snapshot_once none [[]]
    [STQ.Ev.applied, STQ.Ev.applied, STQ.Ev.insert (some 1) []]
    (List.mem_cons_self _ _)

/-! ### Helper lemmas about the status listener -/

theorem deliverStatus_inv (s : STQ.SubState) (ev : STQ.Status × Bool)
    (h1 : s.unsubAssigned = true)
    (h2 : s.listenerRegistered = true → s.subscribeCalls = 0)
    (h3 : s.subscribeCalls ≤ 1) :
    (STQ.deliverStatus s ev).unsubAssigned = true
    ∧ ((STQ.deliverStatus s ev).listenerRegistered = true →
        (STQ.deliverStatus s ev).subscribeCalls = 0)
    ∧ (STQ.deliverStatus s ev).subscribeCalls ≤ 1 := by
  rcases s with ⟨reg, ua, calls⟩
  rcases ev with ⟨st, act⟩
  have h1' : ua = true := h1
  subst h1'
  cases reg with
  | false => exact ⟨rfl, h2, h3⟩
  | true =>
    have hc : calls = 0 := h2 rfl
    subst hc
    by_cases hst : st = STQ.Status.connected
    · subst hst
      cases act with
      | false => decide
      | true => decide
    · simp [STQ.deliverStatus, STQ.handleStatus, hst]

theorem runStatus_inv :
    ∀ (evs : List (STQ.Status × Bool)) (s : STQ.SubState),
      s.unsubAssigned = true →
      (s.listenerRegistered = true → s.subscribeCalls = 0) →
      s.subscribeCalls ≤ 1 →
      (STQ.runStatus s evs).subscribeCalls ≤ 1 := by
  intro evs
  induction evs with
  | nil => exact fun s _ _ h3 => h3
  | cons e tl ih =>
    intro s h1 h2 h3
    have hd := deliverStatus_inv s e h1 h2 h3
    exact ih (STQ.deliverStatus s e) hd.1 hd.2.1 hd.2.2

/-- Claim C4 counterexample: when the connection status is already
`connected` at construction time, the synchronous initial notification
issues the subscribe call while `unsubscribeStatus` is still unassigned,
so the status listener stays registered and a later reconnect
(disconnected, then connected again) issues a second subscribe call. -/
theorem subscribe_twice_counterexample :
    (STQ.runStatus (STQ.construct STQ.Status.connected true)
      [(STQ.Status.disconnected, true),
       (STQ.Status.connected, true)]).subscribeCalls = 2 := by
  decide

/-- Claim C4 as amended: provided the status is not already `connected`
when the constructor registers its status listener, the subscribe call
is issued at most once over the instance's lifetime, whatever status
transitions and client-activity values follow — the first connected
transition deregisters the listener. -/
theorem subscribe_at_most_once (initStatus : STQ.Status) (a0 : Bool)
    (evs : List (STQ.Status × Bool))
    (h : initStatus ≠ STQ.Status.connected) :
    (STQ.runStatus (STQ.construct initStatus a0) evs).subscribeCalls ≤ 1 := by
  have hcon : STQ.construct initStatus a0
      = ⟨true, true, 0⟩ := by
    simp [STQ.construct, STQ.handleStatus, h]
  rw [hcon]
  exact runStatus_inv evs ⟨true, true, 0⟩ rfl (fun _ => rfl) (by decide)

/-- Claim C4 witness: a view constructed while disconnected, then
connected, disconnected and connected again, subscribes at most once. -/
theorem subscribe_at_most_once_witness :
    (STQ.runStatus (STQ.construct STQ.Status.disconnected true)
      [(STQ.Status.connected, true), (STQ.Status.disconnected, true),
       (STQ.Status.connected, true)]).subscribeCalls ≤ 1 :=
  subscribe_at_most_once STQ.Status.disconnected true
    [(STQ.Status.connected, true), (STQ.Status.disconnected, true),
     (STQ.Status.connected, true)] (by decide)

/-- Claim C6 counterexample: after a first `destroy()` on an instance
that had established a subscription, a second `destroy()` is not free of
observable actions — `#unsubscribe` was never reset to `null`, so the
subscription's cancel handle is invoked once more. -/
theorem destroy_twice_counterexample :
    (STQ.destroy (STQ.destroy ⟨true, 3⟩).1).2 = (1, 0)
    ∧ (STQ.destroy (STQ.destroy ⟨true, 3⟩).1).2 ≠ (0, 0) := by
  decide

/-- Claim C6 as amended: a second `destroy()` raises no error and
repeats no table-listener deregistration (the array was emptied), but it
re-invokes the subscription cancel exactly when a subscription had been
established; the first call performs the one cancel (if any) and all
`n` table deregistrations. -/
theorem destroy_second_call (b : Bool) (n : Nat) :
    (STQ.destroy (STQ.destroy ⟨b, n⟩).1).2 = (if b then 1 else 0, 0)
    ∧ (STQ.destroy ⟨b, n⟩).2 = (if b then 1 else 0, n) := by
  cases b <;> exact ⟨rfl, rfl⟩
